import Mathlib

/-!
Shallow embedding of `src/github.rs`: a small GitHub API client with a
request builder (`prepare`), a GraphQL executor (`graphql`), a batching
username resolver (`usernames`) and a node-id encoder (`user_node_id`).

The HTTP transport is modelled as an oracle function passed to the
operations; executions additionally return the ordered list of request
parameter sets actually handed to the transport, so that "how many network
calls were issued, and with what payload" is a definable quantity.
-/

namespace Github

/-- `static API_BASE: &str = "https://api.github.com/"` -/
def API_BASE : String := "https://api.github.com/"

/-- HTTP methods used by the client (`reqwest::Method`). -/
inductive Method where
  | GET
  | POST
deriving DecidableEq, Repr

/-- The error kinds the module can produce (`failure::Error` values are
distinguished here by which `bail!`/`?` site produced them):
`missingToken` is `bail!("missing environment variable GITHUB_TOKEN")`,
`invalidHeader` is the error of `HeaderValue::from_str`,
`transport e` is any error from `send()` / `error_for_status()` / `json()`,
`graphqlErr m` is `bail!("graphql error: \x7b\x7d", message)`, and
`missingData` is `bail!("missing graphql data")`. -/
inductive Err where
  | missingToken
  | invalidHeader
  | transport (e : String)
  | graphqlErr (message : String)
  | missingData
deriving DecidableEq, Repr

/-- An unsent request object as produced by `prepare` (the part of
`reqwest::RequestBuilder` state this module controls). -/
structure Request where
  method : Method
  url : String
  headers : List (String × String)
deriving DecidableEq, Repr

/-- The client state relevant to the embedded code: the optional token read
from the `GITHUB_TOKEN` environment variable at construction.  The
`reqwest::blocking::Client` handle carries no observable state and is
replaced by explicit transport oracles below. -/
structure GitHubApi where
  token : Option String
deriving DecidableEq, Repr

/-- A character acceptable in an HTTP header value, as checked by
`http::HeaderValue::from_str`: horizontal tab, or any byte that is not an
ASCII control character and not DEL.  Characters above U+007F encode in
UTF-8 to bytes `0x80..0xFF`, which `HeaderValue` accepts as obs-text, so
validity is per-character. -/
def validHeaderChar (c : Char) : Bool :=
  c.toNat == 9 || (32 ≤ c.toNat && c.toNat != 127)

/-- `HeaderValue::from_str` on the string `s`: `some s` when every
character is valid for a header value, `none` (an error) otherwise. -/
def headerValueFromStr (s : String) : Option String :=
  if s.data.all validHeaderChar then some s else none

/-- `url.starts_with("https://")`, expressed on the character list. -/
def startsWithHttps (url : String) : Bool :=
  "https://".data.isPrefixOf url.data

/-- `GitHubApi::require_auth`: fail with the missing-environment-variable
error when no token is configured. -/
def requireAuth (api : GitHubApi) : Except Err Unit :=
  if api.token.isNone then .error .missingToken else .ok ()

/-- `GitHubApi::prepare(require_auth, method, url)`: resolve the URL
(absolute `https://` URLs verbatim, otherwise relative to `API_BASE`),
enforce authentication when required, and attach the
`Authorization: token <tok>` header whenever a token is configured. -/
def prepare (api : GitHubApi) (require_auth : Bool) (method : Method)
    (url : String) : Except Err Request := do
  let url := if startsWithHttps url then url else API_BASE ++ url
  if require_auth then requireAuth api
  let headers ←
    match api.token with
    | some token =>
        match headerValueFromStr ("token " ++ token) with
        | some v => pure [("authorization", v)]
        | none => .error .invalidHeader
    | none => pure ([] : List (String × String))
  pure { method := method, url := url, headers := headers }

/-- `struct GraphError { message: String }` -/
structure GraphError where
  message : String
deriving DecidableEq, Repr

/-- `struct GraphResult<T> { data: Option<T>, #[serde(default)] errors: Vec<GraphError> }` -/
structure GraphResult (T : Type) where
  data : Option T
  errors : List GraphError
deriving DecidableEq, Repr

/-- The envelope resolution at the end of `GitHubApi::graphql`:
first error wins; otherwise present data; otherwise "missing graphql data". -/
def resolveGraphResult {R : Type} (res : GraphResult R) : Except Err R :=
  match res.errors.head? with
  | some error => .error (.graphqlErr error.message)
  | none =>
      match res.data with
      | some data => .ok data
      | none => .error .missingData

/-- `GitHubApi::graphql(query, vars)`.  The transport oracle `net`
models the composite `send()?.error_for_status()?.json()?`: it either
fails with a transport error or yields the decoded envelope.  The second
component of the result is the list of variable payloads actually sent
over the network (empty when `prepare` fails, a singleton otherwise). -/
def graphql {V R : Type} (api : GitHubApi)
    (net : V → Except Err (GraphResult R)) (query : String) (vars : V) :
    Except Err R × List V :=
  match prepare api true .POST "graphql" with
  | .error e => (.error e, [])
  | .ok _req =>
      match net vars with
      | .error e => (.error e, [vars])
      | .ok res => (resolveGraphResult res, [vars])

/-- `struct GraphNodes<T> { nodes: Vec<Option<T>> }` -/
structure GraphNodes (T : Type) where
  nodes : List (Option T)
deriving DecidableEq, Repr

/-- The per-node payload selected by the `usernames` query:
`struct Usernames { database_id: usize, login: String }` (camelCased on
the wire as `databaseId`/`login`). -/
structure Usernames where
  databaseId : Nat
  login : String
deriving DecidableEq, Repr

/-- `struct Params { ids: Vec<String> }`, the GraphQL variables of one
`usernames` chunk query. -/
structure Params where
  ids : List String
deriving DecidableEq, Repr

/-- The `static QUERY` literal sent with every `usernames` chunk. -/
def QUERY : String :=
  "\n            query($ids: [ID!]!) \x7b\n                nodes(ids: $ids) \x7b\n                    ... on User \x7b\n                        databaseId\n                        login\n                    \x7d\n                \x7d\n            \x7d\n        "

/-- Decimal digit characters of `n`, most significant first: the output of
Rust's `format!("\x7b\x7d", id)` for a `usize`. -/
def decDigits (n : Nat) : List Char :=
  if h : n < 10 then [Nat.digitChar n]
  else
    have : n / 10 < n := Nat.div_lt_self (by omega) (by omega)
    decDigits (n / 10) ++ [Nat.digitChar (n % 10)]

/-- The standard base64 alphabet, index `0..63`. -/
def b64Alphabet : List Char :=
  ['A','B','C','D','E','F','G','H','I','J','K','L','M','N','O','P',
   'Q','R','S','T','U','V','W','X','Y','Z',
   'a','b','c','d','e','f','g','h','i','j','k','l','m','n','o','p',
   'q','r','s','t','u','v','w','x','y','z',
   '0','1','2','3','4','5','6','7','8','9','+','/']

/-- The alphabet character of a six-bit group. -/
def sextetChar (s : Nat) : Char := b64Alphabet.getD s 'A'

/-- Standard base64 with padding over a byte list (`base64::encode`),
with the bit operations written as division/remainder arithmetic:
`b >> 2` is `b / 4`, `(b & 3) << 4` is `b % 4 * 16`, and so on. -/
def b64EncodeBytes : List Nat → List Char
  | [] => []
  | [b1] =>
      [sextetChar (b1 / 4), sextetChar (b1 % 4 * 16), '=', '=']
  | [b1, b2] =>
      [sextetChar (b1 / 4), sextetChar (b1 % 4 * 16 + b2 / 16),
       sextetChar (b2 % 16 * 4), '=']
  | b1 :: b2 :: b3 :: rest =>
      sextetChar (b1 / 4) :: sextetChar (b1 % 4 * 16 + b2 / 16) ::
      sextetChar (b2 % 16 * 4 + b3 / 64) :: sextetChar (b3 % 64) ::
      b64EncodeBytes rest

/-- `fn user_node_id(id: usize) -> String \x7b base64::encode(&format!("04:User\x7b\x7d", id)) \x7d`.
The formatted string is pure ASCII, so its UTF-8 bytes are exactly the
code points of its characters. -/
def user_node_id (id : Nat) : String :=
  String.mk (b64EncodeBytes (("04:User".data ++ decDigits id).map Char.toNat))

/-- Fuel-indexed worker for `chunksList`: the fuel dominates the list
length, so the recursion is structural (and hence kernel-computable). -/
def chunksGo {α : Type} (n : Nat) : Nat → List α → List (List α)
  | _, [] => []
  | 0, _ :: _ => []
  | fuel + 1, x :: xs =>
      (x :: xs).take n :: chunksGo n fuel ((x :: xs).drop n)

/-- `slice::chunks(n)`: consecutive windows of at most `n` elements.
(For `n = 0` Rust panics; the model returns `[]`, and the code only ever
uses `n = 100`.) -/
def chunksList {α : Type} (n : Nat) (l : List α) : List (List α) :=
  chunksGo n l.length l

/-- The aggregate result map.  `HashMap<usize, String>` is modelled as an
association list in which `insert` replaces any previous binding of the
key; the observable content is `UMap.find?`. -/
def UMap : Type := List (Nat × String)

instance : DecidableEq UMap := inferInstanceAs (DecidableEq (List (Nat × String)))

/-- `HashMap::insert`: bind `k` to `v`, discarding any previous binding. -/
def UMap.insert (m : UMap) (k : Nat) (v : String) : UMap :=
  (k, v) :: (List.filter (fun p => p.1 != k) m)

/-- `HashMap::get`: the value currently bound to `k`, if any. -/
def UMap.find? (m : UMap) (k : Nat) : Option String :=
  (List.find? (fun p => p.1 == k) m).map (fun p => p.2)

/-- The empty map (`HashMap::new`). -/
def UMap.empty : UMap := []

/-- The inner loop of `usernames` over one chunk response:
`for node in res.nodes.into_iter().flatten() \x7b result.insert(node.database_id, node.login); \x7d`
(`flatten` on an iterator of `Option` skips the `None` entries). -/
def mergeNodes (acc : UMap) (nodes : List (Option Usernames)) : UMap :=
  nodes.foldl
    (fun r node =>
      match node with
      | some u => r.insert u.databaseId u.login
      | none => r)
    acc

/-- The `for chunk in ids.chunks(100)` loop of `usernames`, over an
explicit list of chunks, also accumulating the transport trace. -/
def usernamesGo (api : GitHubApi)
    (net : Params → Except Err (GraphResult (GraphNodes Usernames))) :
    List (List Nat) → UMap → Except Err UMap × List Params
  | [], result => (.ok result, [])
  | chunk :: rest, result =>
      let p : Params := ⟨chunk.map user_node_id⟩
      match graphql api net QUERY p with
      | (.error e, t) => (.error e, t)
      | (.ok res, t) =>
          let out := usernamesGo api net rest (mergeNodes result res.nodes)
          (out.1, t ++ out.2)

/-- `GitHubApi::usernames(ids)`: split into chunks of 100, resolve each
chunk through one GraphQL call, merge the non-null nodes into one map.
Returns the result together with the list of issued chunk payloads. -/
def usernames (api : GitHubApi)
    (net : Params → Except Err (GraphResult (GraphNodes Usernames)))
    (ids : List Nat) : Except Err UMap × List Params :=
  usernamesGo api net (chunksList 100 ids) UMap.empty

/-- `struct User { id: usize, login: String, name: Option<String>, email: Option<String> }` -/
structure User where
  id : Nat
  login : String
  name : Option String
  email : Option String
deriving DecidableEq, Repr

/-- JSON documents, as far as this module's responses need them (the
numbers that occur are integers). -/
inductive Json where
  | null
  | bool (b : Bool)
  | num (n : Int)
  | str (s : String)
  | arr (xs : List Json)
  | obj (fields : List (String × Json))

/-- The value of the field `name` in a JSON object's field list (objects
produced by the platform have distinct keys, so the first match is the
field). -/
def jsonField (fields : List (String × Json)) (name : String) : Option Json :=
  (List.find? (fun p => p.1 == name) fields).map (fun p => p.2)

/-- serde deserialization of a `String`. -/
def decodeString : Json → Except String String
  | .str s => .ok s
  | _ => .error "invalid type: expected a string"

/-- serde deserialization of a `usize`: a non-negative integer. -/
def decodeUsize : Json → Except String Nat
  | .num n => if 0 ≤ n then .ok n.toNat else .error "invalid value: negative integer"
  | _ => .error "invalid type: expected an integer"

/-- serde deserialization of an `Option<String>` struct field: a missing
field and an explicit `null` both give `none`; derive-generated code does
not require `Option` fields to be present. -/
def decodeOptStringField (fields : List (String × Json)) (name : String) :
    Except String (Option String) :=
  match jsonField fields name with
  | none => .ok none
  | some .null => .ok none
  | some v => (decodeString v).map some

/-- serde deserialization of a required struct field. -/
def decodeReqField {α : Type} (dec : Json → Except String α)
    (fields : List (String × Json)) (name : String) : Except String α :=
  match jsonField fields name with
  | none => .error ("missing field " ++ name)
  | some v => dec v

/-- Deserialization of `User` (serde derive: unknown fields ignored,
`Option` fields defaulting to `None` when missing or null). -/
def decodeUser : Json → Except String User
  | .obj fields => do
      let id ← decodeReqField decodeUsize fields "id"
      let login ← decodeReqField decodeString fields "login"
      let name ← decodeOptStringField fields "name"
      let email ← decodeOptStringField fields "email"
      pure ⟨id, login, name, email⟩
  | _ => .error "invalid type: expected an object"

/-- Deserialization of `GraphError`. -/
def decodeGraphError : Json → Except String GraphError
  | .obj fields => do
      let message ← decodeReqField decodeString fields "message"
      pure ⟨message⟩
  | _ => .error "invalid type: expected an object"

/-- Deserialization of `GraphResult<T>` given a deserializer for `T`.
`data: Option<T>` accepts a missing field or `null` as `none`;
`#[serde(default)] errors: Vec<GraphError>` substitutes the default empty
vector only when the field is MISSING — an explicit `null` is not a JSON
array and fails to deserialize into a `Vec`. -/
def decodeGraphResult {α : Type} (decT : Json → Except String α) :
    Json → Except String (GraphResult α)
  | .obj fields => do
      let data ←
        match jsonField fields "data" with
        | none => pure (none : Option α)
        | some .null => pure (none : Option α)
        | some v => (decT v).map some
      let errors ←
        match jsonField fields "errors" with
        | none => pure ([] : List GraphError)
        | some (.arr xs) => xs.mapM decodeGraphError
        | some _ => .error "invalid type: expected a sequence"
      pure ⟨data, errors⟩
  | _ => .error "invalid type: expected an object"

/-- The last node of `nodes` (in processing order) that is present and
carries `databaseId = k`, if any — the specification-side description of
which node a repeated-key merge should keep. -/
def lastK : List (Option Usernames) → Nat → Option Usernames
  | [], _ => none
  | node :: rest, k =>
      match lastK rest k with
      | some u => some u
      | none =>
          match node with
          | some u => if u.databaseId = k then some u else none
          | none => none

/-- The concatenation, in order, of the node lists that the transport
returns for the chunks of `ids` (used to speak about processing order
across chunks). -/
def allChunkNodes (nodesOf : Params → List (Option Usernames))
    (ids : List Nat) : List (Option Usernames) :=
  ((chunksList 100 ids).map (fun c => nodesOf ⟨c.map user_node_id⟩)).flatten

/-- Index of a character in the base64 alphabet: the inverse of
`sextetChar` on six-bit values (used only to reason about the encoder). -/
def charSextet (c : Char) : Nat := b64Alphabet.indexOf c

/-- Left inverse of `b64EncodeBytes` on byte lists (a verification
artifact: the platform, not this system, decodes these strings). -/
def b64DecodeBytes : List Char → List Nat
  | c1 :: c2 :: c3 :: c4 :: rest =>
      if c3 = '=' then [charSextet c1 * 4 + charSextet c2 / 16]
      else if c4 = '=' then
        [charSextet c1 * 4 + charSextet c2 / 16,
         charSextet c2 % 16 * 16 + charSextet c3 / 4]
      else
        (charSextet c1 * 4 + charSextet c2 / 16) ::
        (charSextet c2 % 16 * 16 + charSextet c3 / 4) ::
        (charSextet c3 % 4 * 64 + charSextet c4) :: b64DecodeBytes rest
  | _ => []

/-- Numeric value of a decimal digit string (left inverse of
`decDigits`). -/
def digitsVal (cs : List Char) : Nat :=
  cs.foldl (fun acc c => acc * 10 + (c.toNat - 48)) 0

/-! ## Helper lemmas -/

theorem chunksGo_nil {α : Type} (n f : Nat) :
    chunksGo n f ([] : List α) = [] := by
  cases f <;> rfl

theorem chunksGo_fuel {α : Type} (n : Nat) (hn : 0 < n) :
    ∀ (f1 f2 : Nat) (l : List α), l.length ≤ f1 → l.length ≤ f2 →
      chunksGo n f1 l = chunksGo n f2 l := by
  intro f1
  induction f1 with
  | zero =>
      intro f2 l h1 _h2
      have hl : l = [] := by cases l <;> simp_all
      subst hl
      simp [chunksGo_nil]
  | succ g ih =>
      intro f2 l h1 h2
      cases l with
      | nil => simp [chunksGo_nil]
      | cons x xs =>
          cases f2 with
          | zero => simp at h2
          | succ g2 =>
              simp only [chunksGo]
              congr 1
              apply ih
              · simp only [List.length_drop, List.length_cons] at *
                omega
              · simp only [List.length_drop, List.length_cons] at *
                omega

theorem chunksList_nil {α : Type} (n : Nat) :
    chunksList n ([] : List α) = [] := rfl

theorem chunksList_cons {α : Type} (n : Nat) (hn : 0 < n) (l : List α)
    (hl : l ≠ []) :
    chunksList n l = l.take n :: chunksList n (l.drop n) := by
  cases l with
  | nil => exact absurd rfl hl
  | cons x xs =>
      show chunksGo n (xs.length + 1) (x :: xs) = _
      simp only [chunksGo]
      congr 1
      apply chunksGo_fuel n hn
      · simp only [List.length_drop, List.length_cons]
        omega
      · exact Nat.le_refl _

theorem chunksGo_join {α : Type} (n : Nat) (hn : 0 < n) :
    ∀ (f : Nat) (l : List α), l.length ≤ f → (chunksGo n f l).flatten = l := by
  intro f
  induction f with
  | zero =>
      intro l h1
      have hl : l = [] := by cases l <;> simp_all
      subst hl
      simp [chunksGo_nil]
  | succ g ih =>
      intro l h1
      cases l with
      | nil => simp [chunksGo_nil]
      | cons x xs =>
          simp only [chunksGo, List.flatten_cons]
          rw [ih]
          · exact List.take_append_drop n (x :: xs)
          · simp only [List.length_drop, List.length_cons] at *
            omega

theorem chunksGo_length_le {α : Type} (n : Nat) :
    ∀ (f : Nat) (l : List α), ∀ c ∈ chunksGo n f l, c.length ≤ n := by
  intro f
  induction f with
  | zero =>
      intro l c hc
      cases l with
      | nil => simp [chunksGo_nil] at hc
      | cons x xs => simp only [chunksGo] at hc; simp at hc
  | succ g ih =>
      intro l c hc
      cases l with
      | nil => simp [chunksGo_nil] at hc
      | cons x xs =>
          simp only [chunksGo, List.mem_cons] at hc
          rcases hc with h | h
          · subst h
            simpa using Nat.min_le_left n _
          · exact ih _ c h

theorem find?_insert_self (m : UMap) (k : Nat) (v : String) :
    UMap.find? (UMap.insert m k v) k = some v := by
  simp [UMap.find?, UMap.insert]

theorem find?_filter_other (k k' : Nat) (h : k' ≠ k) :
    ∀ (m : List (Nat × String)),
      List.find? (fun p => p.1 == k') (List.filter (fun p => p.1 != k) m) =
        List.find? (fun p => p.1 == k') m := by
  intro m
  induction m with
  | nil => rfl
  | cons p rest ih =>
      by_cases hp : p.1 = k
      · simp [List.filter_cons, List.find?_cons, hp, Ne.symm h, ih]
      · by_cases hp' : p.1 = k'
        · simp [List.filter_cons, List.find?_cons, hp, hp', h]
        · simp [List.filter_cons, List.find?_cons, hp, hp', ih]

theorem find?_insert_other (m : UMap) (k k' : Nat) (v : String)
    (h : k' ≠ k) :
    UMap.find? (UMap.insert m k v) k' = UMap.find? m k' := by
  simp only [UMap.find?, UMap.insert, List.find?_cons]
  have : (fun p => p.1 == k') (k, v) = false := by simp [Ne.symm h]
  simp only [this]
  rw [find?_filter_other k k' h m]

theorem mergeNodes_nil (acc : UMap) : mergeNodes acc [] = acc := rfl

theorem mergeNodes_cons (acc : UMap) (node : Option Usernames)
    (rest : List (Option Usernames)) :
    mergeNodes acc (node :: rest) =
      mergeNodes
        (match node with
         | some u => acc.insert u.databaseId u.login
         | none => acc) rest := by
  cases node <;> rfl

theorem mergeNodes_append (acc : UMap) (ns1 ns2 : List (Option Usernames)) :
    mergeNodes acc (ns1 ++ ns2) = mergeNodes (mergeNodes acc ns1) ns2 := by
  simp [mergeNodes, List.foldl_append]

theorem mergeNodes_filterMap (nodes : List (Option Usernames)) :
    ∀ acc : UMap,
      mergeNodes acc nodes =
        (nodes.filterMap id).foldl
          (fun r u => r.insert u.databaseId u.login) acc := by
  induction nodes with
  | nil => intro acc; rfl
  | cons node rest ih =>
      intro acc
      cases node with
      | none =>
          rw [mergeNodes_cons]
          simpa using ih acc
      | some u =>
          rw [mergeNodes_cons]
          simpa using ih (acc.insert u.databaseId u.login)

theorem find?_mergeNodes (nodes : List (Option Usernames)) :
    ∀ (acc : UMap) (k : Nat),
      UMap.find? (mergeNodes acc nodes) k =
        (match lastK nodes k with
         | some u => some u.login
         | none => UMap.find? acc k) := by
  induction nodes with
  | nil => intro acc k; rfl
  | cons node rest ih =>
      intro acc k
      rw [mergeNodes_cons]
      rw [ih]
      cases hrest : lastK rest k with
      | some u => simp [lastK, hrest]
      | none =>
          cases node with
          | none => simp [lastK, hrest]
          | some u =>
              by_cases hk : u.databaseId = k
              · subst hk
                simp [lastK, hrest, find?_insert_self]
              · simp [lastK, hrest, hk, find?_insert_other _ _ _ _ (Ne.symm hk)]

theorem prepare_none (m : Method) (url : String) :
    prepare ⟨none⟩ true m url = .error .missingToken := by
  simp [prepare, requireAuth, Bind.bind, Except.bind]

theorem prepare_some (tok : String) (ra : Bool) (m : Method) (url : String)
    (hv : ("token " ++ tok).data.all validHeaderChar = true) :
    prepare ⟨some tok⟩ ra m url =
      .ok ⟨m, if startsWithHttps url then url else API_BASE ++ url,
           [("authorization", "token " ++ tok)]⟩ := by
  have hvv : headerValueFromStr ("token " ++ tok) = some ("token " ++ tok) := by
    unfold headerValueFromStr
    rw [hv]
    rfl
  cases ra <;> simp [prepare, requireAuth, hvv, Bind.bind, Except.bind, Pure.pure, Except.pure]

theorem prepare_some_invalid (tok : String) (ra : Bool) (m : Method)
    (url : String)
    (hv : ("token " ++ tok).data.all validHeaderChar = false) :
    prepare ⟨some tok⟩ ra m url = .error .invalidHeader := by
  have hvv : headerValueFromStr ("token " ++ tok) = none := by
    unfold headerValueFromStr
    rw [hv]
    rfl
  cases ra <;> simp [prepare, requireAuth, hvv, Bind.bind, Except.bind, Pure.pure, Except.pure]

theorem graphql_no_token {V R : Type} (net : V → Except Err (GraphResult R))
    (q : String) (p : V) :
    graphql ⟨none⟩ net q p = (.error .missingToken, []) := by
  simp [graphql, prepare_none]

theorem graphql_ok_env {V R : Type} (tok : String)
    (net : V → Except Err (GraphResult R)) (q : String) (p : V)
    (env : GraphResult R)
    (hv : ("token " ++ tok).data.all validHeaderChar = true)
    (hnet : net p = .ok env) :
    graphql ⟨some tok⟩ net q p = (resolveGraphResult env, [p]) := by
  simp [graphql, prepare_some tok true .POST "graphql" hv, hnet]

theorem graphql_net_err {V R : Type} (tok : String)
    (net : V → Except Err (GraphResult R)) (q : String) (p : V) (e : Err)
    (hv : ("token " ++ tok).data.all validHeaderChar = true)
    (hnet : net p = .error e) :
    graphql ⟨some tok⟩ net q p = (.error e, [p]) := by
  simp [graphql, prepare_some tok true .POST "graphql" hv, hnet]

theorem chunksList_single (l : List Nat) (h1 : l ≠ []) (h2 : l.length ≤ 100) :
    chunksList 100 l = [l] := by
  rw [chunksList_cons 100 (by omega) l h1]
  rw [List.take_of_length_le h2, List.drop_eq_nil_of_le h2, chunksList_nil]

theorem usernamesGo_all_ok (tok : String)
    (net : Params → Except Err (GraphResult (GraphNodes Usernames)))
    (nodesOf : Params → List (Option Usernames))
    (hv : ("token " ++ tok).data.all validHeaderChar = true)
    (hnet : ∀ p, net p = .ok ⟨some ⟨nodesOf p⟩, []⟩) :
    ∀ (cs : List (List Nat)) (acc : UMap),
      usernamesGo ⟨some tok⟩ net cs acc =
        (.ok (mergeNodes acc
          ((cs.map (fun c => nodesOf ⟨c.map user_node_id⟩)).flatten)),
         cs.map (fun c => (⟨c.map user_node_id⟩ : Params))) := by
  intro cs
  induction cs with
  | nil => intro acc; rfl
  | cons c rest ih =>
      intro acc
      have hg := graphql_ok_env tok net QUERY (⟨c.map user_node_id⟩ : Params)
        ⟨some ⟨nodesOf ⟨c.map user_node_id⟩⟩, []⟩ hv (hnet _)
      simp only [usernamesGo, hg, resolveGraphResult, List.head?]
      rw [ih (mergeNodes acc (nodesOf ⟨c.map user_node_id⟩))]
      simp [mergeNodes_append]

theorem usernamesGo_trace_ok (tok : String)
    (net : Params → Except Err (GraphResult (GraphNodes Usernames)))
    (hv : ("token " ++ tok).data.all validHeaderChar = true)
    (hnet : ∀ p, ∃ d, net p = .ok ⟨some d, []⟩) :
    ∀ (cs : List (List Nat)) (acc : UMap),
      (usernamesGo ⟨some tok⟩ net cs acc).2 =
        cs.map (fun c => (⟨c.map user_node_id⟩ : Params)) := by
  intro cs
  induction cs with
  | nil => intro acc; rfl
  | cons c rest ih =>
      intro acc
      obtain ⟨d, hd⟩ := hnet (⟨c.map user_node_id⟩ : Params)
      have hg := graphql_ok_env tok net QUERY (⟨c.map user_node_id⟩ : Params)
        ⟨some d, []⟩ hv hd
      simp only [usernamesGo, hg, resolveGraphResult, List.head?]
      rw [List.map_cons]
      simp [ih]

theorem usernamesGo_first_fail (tok : String)
    (net : Params → Except Err (GraphResult (GraphNodes Usernames))) :
    ∀ (cs : List (List Nat)) (k : Nat) (e : Err) (acc : UMap),
      k < cs.length →
      (∀ j, j < k →
        ∃ d, (graphql ⟨some tok⟩ net QUERY
          (⟨(cs.getD j []).map user_node_id⟩ : Params)).1 = .ok d) →
      (graphql ⟨some tok⟩ net QUERY
        (⟨(cs.getD k []).map user_node_id⟩ : Params)).1 = .error e →
      (usernamesGo ⟨some tok⟩ net cs acc).1 = .error e := by
  intro cs
  induction cs with
  | nil => intro k e acc hk; simp at hk
  | cons c rest ih =>
      intro k e acc hk hok hfail
      cases k with
      | zero =>
          simp only [List.getD_cons_zero] at hfail
          rcases hg : graphql ⟨some tok⟩ net QUERY
            (⟨c.map user_node_id⟩ : Params) with ⟨g1, g2⟩
          rw [hg] at hfail
          simp at hfail
          simp only [usernamesGo, hg, hfail]
      | succ k' =>
          obtain ⟨d, hd⟩ := hok 0 (Nat.succ_pos k')
          simp only [List.getD_cons_zero] at hd
          rcases hg : graphql ⟨some tok⟩ net QUERY
            (⟨c.map user_node_id⟩ : Params) with ⟨g1, g2⟩
          rw [hg] at hd
          simp at hd
          subst hd
          simp only [usernamesGo, hg]
          apply ih k' e _ (by simpa using hk)
          · intro j hj
            have := hok (j + 1) (by omega)
            simpa using this
          · simpa using hfail

/-- C1: for every GraphQL response envelope delivered by the transport, the
`graphql` operation resolves it with exact three-way precedence: a
non-empty `errors` list fails with a GraphQL error carrying the first
error's message (later errors and any present `data` are discarded);
otherwise present `data` is returned; otherwise the call fails with the
missing-data error. -/
theorem graphql_three_way_precedence {V R : Type} (tok : String)
    (net : V → Except Err (GraphResult R)) (q : String) (p : V)
    (env : GraphResult R)
    (hv : ("token " ++ tok).data.all validHeaderChar = true)
    (hnet : net p = .ok env) :
    (∀ e0 rest, env.errors = e0 :: rest →
      (graphql ⟨some tok⟩ net q p).1 = .error (.graphqlErr e0.message))
    ∧ (∀ d, env.errors = [] → env.data = some d →
      (graphql ⟨some tok⟩ net q p).1 = .ok d)
    ∧ (env.errors = [] → env.data = none →
      (graphql ⟨some tok⟩ net q p).1 = .error .missingData) := by
  have hg := graphql_ok_env tok net q p env hv hnet
  refine ⟨?_, ?_, ?_⟩
  · intro e0 rest herr
    simp [hg, resolveGraphResult, herr]
  · intro d he hd
    simp [hg, resolveGraphResult, he, hd]
  · intro he hd
    simp [hg, resolveGraphResult, he, hd]

/-- Witness for C1 at concrete envelopes: two errors plus present data
resolve to the first error's message; empty errors with data return the
data; empty errors with null data fail with the missing-data error. -/
theorem graphql_three_way_precedence_witness :
    (graphql (V := Unit) ⟨some "t"⟩
      (fun _ => .ok ⟨some 42, [⟨"first"⟩, ⟨"second"⟩]⟩) QUERY ()).1 =
        .error (.graphqlErr "first")
    ∧ (graphql (V := Unit) ⟨some "t"⟩
      (fun _ => .ok ⟨some 42, []⟩) QUERY ()).1 = .ok 42
    ∧ (graphql (V := Unit) (R := Nat) ⟨some "t"⟩
      (fun _ => .ok ⟨none, []⟩) QUERY ()).1 = .error .missingData := by
  refine ⟨?_, ?_, ?_⟩
  · exact (graphql_three_way_precedence "t"
      (fun _ => .ok ⟨some 42, [⟨"first"⟩, ⟨"second"⟩]⟩) QUERY ()
      ⟨some 42, [⟨"first"⟩, ⟨"second"⟩]⟩ (by decide) rfl).1
      ⟨"first"⟩ [⟨"second"⟩] rfl
  · exact (graphql_three_way_precedence "t"
      (fun _ => .ok ⟨some 42, []⟩) QUERY ()
      ⟨some 42, []⟩ (by decide) rfl).2.1 42 rfl rfl
  · exact (graphql_three_way_precedence "t"
      (fun _ => .ok ⟨none, []⟩) QUERY ()
      ⟨none, []⟩ (by decide) rfl).2.2 rfl rfl

/-- C3: the chunking performed by `usernames` is a stable partition into
consecutive chunks of at most 100 elements: concatenating the chunks in
order reproduces the input list exactly. -/
theorem usernames_chunking_stable_partition (ids : List Nat) :
    (chunksList 100 ids).flatten = ids
    ∧ ∀ c ∈ chunksList 100 ids, c.length ≤ 100 := by
  constructor
  · exact chunksGo_join 100 (by omega) ids.length ids (Nat.le_refl _)
  · exact chunksGo_length_le 100 ids.length ids

/-- Witness for C3 on a concrete list. -/
theorem usernames_chunking_stable_partition_witness :
    (chunksList 100 [7, 8, 9]).flatten = [7, 8, 9]
    ∧ ∀ c ∈ chunksList 100 [7, 8, 9], c.length ≤ 100 :=
  usernames_chunking_stable_partition [7, 8, 9]

/-- C4: for a successful single-chunk response, null entries in the node
list are silently skipped: the operation succeeds and the merged map is
exactly the fold of the non-null nodes' `databaseId → login` pairs. -/
theorem usernames_skips_null_nodes (tok : String)
    (net : Params → Except Err (GraphResult (GraphNodes Usernames)))
    (ids : List Nat) (nodes : List (Option Usernames))
    (hv : ("token " ++ tok).data.all validHeaderChar = true)
    (h1 : ids ≠ []) (h2 : ids.length ≤ 100)
    (hnet : net ⟨ids.map user_node_id⟩ = .ok ⟨some ⟨nodes⟩, []⟩) :
    (usernames ⟨some tok⟩ net ids).1 =
      .ok ((nodes.filterMap id).foldl
        (fun r u => r.insert u.databaseId u.login) UMap.empty) := by
  have hcs := chunksList_single ids h1 h2
  have hg := graphql_ok_env tok net QUERY (⟨ids.map user_node_id⟩ : Params)
    ⟨some ⟨nodes⟩, []⟩ hv hnet
  unfold usernames
  rw [hcs]
  simp only [usernamesGo, hg, resolveGraphResult, List.head?]
  rw [mergeNodes_filterMap]

/-- Witness for C4: chunk `[1,2,3]` answered with
`[null, {databaseId: 2, login: "bob"}, null]` yields exactly `{2: "bob"}`. -/
theorem usernames_skips_null_nodes_witness :
    (usernames ⟨some "t"⟩
      (fun _ => .ok ⟨some ⟨[none, some ⟨2, "bob"⟩, none]⟩, []⟩) [1, 2, 3]).1 =
      .ok ((([none, some ⟨2, "bob"⟩, none] : List (Option Usernames)).filterMap
        id).foldl (fun r u => r.insert u.databaseId u.login) UMap.empty)
    ∧ (([none, some ⟨2, "bob"⟩, none] : List (Option Usernames)).filterMap
        id).foldl (fun r u => r.insert u.databaseId u.login) UMap.empty =
        [(2, "bob")] := by
  refine ⟨?_, by decide⟩
  exact usernames_skips_null_nodes "t"
    (fun _ => .ok ⟨some ⟨[none, some ⟨2, "bob"⟩, none]⟩, []⟩) [1, 2, 3]
    [none, some ⟨2, "bob"⟩, none] (by decide) (by decide) (by decide) rfl

/-- C5: with no credential configured, `prepare` with `require_auth`,
`graphql`, and `usernames` (on a non-empty input) all fail with the
missing-token configuration error, and the transport trace is empty: no
network request is attempted. -/
theorem auth_missing_fails_before_network {V R : Type} (m : Method)
    (url : String) (net1 : V → Except Err (GraphResult R)) (q : String)
    (p : V) (net : Params → Except Err (GraphResult (GraphNodes Usernames)))
    (ids : List Nat) (hids : ids ≠ []) :
    prepare ⟨none⟩ true m url = .error .missingToken
    ∧ graphql ⟨none⟩ net1 q p = (.error .missingToken, [])
    ∧ usernames ⟨none⟩ net ids = (.error .missingToken, []) := by
  refine ⟨prepare_none m url, graphql_no_token net1 q p, ?_⟩
  have hcs := chunksList_cons 100 (by omega) ids hids
  unfold usernames
  rw [hcs]
  simp [usernamesGo, graphql_no_token]

/-- Witness for C5 at concrete inputs. -/
theorem auth_missing_fails_before_network_witness :
    prepare ⟨none⟩ true .POST "graphql" = .error .missingToken
    ∧ graphql (V := Unit) (R := Nat) ⟨none⟩
        (fun _ => .ok ⟨some 1, []⟩) QUERY () = (.error .missingToken, [])
    ∧ usernames ⟨none⟩ (fun _ => .ok ⟨some ⟨[]⟩, []⟩) [5] =
        (.error .missingToken, []) :=
  auth_missing_fails_before_network .POST "graphql"
    (fun _ => .ok ⟨some 1, []⟩) QUERY ()
    (fun _ => .ok ⟨some ⟨[]⟩, []⟩) [5] (by decide)

/-- C6: if the `k`-th chunk of a `usernames` run is the first whose GraphQL
call fails, the whole operation fails with exactly that chunk's error: no
partial map assembled from the earlier chunks is returned. -/
theorem usernames_chunk_failure_aborts (tok : String)
    (net : Params → Except Err (GraphResult (GraphNodes Usernames)))
    (ids : List Nat) (k : Nat) (e : Err)
    (hk : k < (chunksList 100 ids).length)
    (hok : ∀ j, j < k →
      ∃ d, (graphql ⟨some tok⟩ net QUERY
        (⟨((chunksList 100 ids).getD j []).map user_node_id⟩ : Params)).1 =
          .ok d)
    (hfail : (graphql ⟨some tok⟩ net QUERY
      (⟨((chunksList 100 ids).getD k []).map user_node_id⟩ : Params)).1 =
        .error e) :
    (usernames ⟨some tok⟩ net ids).1 = .error e :=
  usernamesGo_first_fail tok net (chunksList 100 ids) k e UMap.empty hk hok
    hfail

/-- Witness for C6: a transport that fails the first chunk makes the whole
operation fail with that transport error. -/
theorem usernames_chunk_failure_aborts_witness :
    (usernames ⟨some "t"⟩ (fun _ => .error (.transport "boom")) [1, 2]).1 =
      .error (.transport "boom") := by
  apply usernames_chunk_failure_aborts "t"
    (fun _ => .error (.transport "boom")) [1, 2] 0 (.transport "boom")
    (by decide) (fun j hj => absurd hj (Nat.not_lt_zero j))
  have hg := graphql_net_err (R := GraphNodes Usernames) "t"
    (fun _ => .error (.transport "boom")) QUERY
    (⟨((chunksList 100 [1, 2]).getD 0 []).map user_node_id⟩ : Params)
    (.transport "boom") (by decide) rfl
  rw [hg]

/-- Counterexample to C2 as frozen: for the identifier list of length 0
(`[]`, which lies in the claimed range 0–100) `usernames` issues ZERO
GraphQL calls, not one — `chunks(100)` of an empty slice yields no chunk,
so the transport trace is empty. -/
theorem usernames_empty_input_zero_calls :
    ([] : List Nat).length ≤ 100
    ∧ (usernames ⟨some "t"⟩ (fun _ => .ok ⟨some ⟨[]⟩, []⟩)
        ([] : List Nat)).2.length = 0
    ∧ ¬ (usernames ⟨some "t"⟩ (fun _ => .ok ⟨some ⟨[]⟩, []⟩)
        ([] : List Nat)).2.length = 1 := by
  refine ⟨by decide, rfl, by decide⟩

/-- C2 amended: provided a credential is configured (with a header-valid
token) and every issued chunk query succeeds, `usernames` issues zero
GraphQL calls for the empty list, exactly one call for lists of length
1–100, and exactly two calls for length 101–200, the second carrying
exactly the encodings of the remainder beyond the first 100. -/
theorem usernames_call_counts (tok : String)
    (net : Params → Except Err (GraphResult (GraphNodes Usernames)))
    (ids : List Nat)
    (hv : ("token " ++ tok).data.all validHeaderChar = true)
    (hnet : ∀ p, ∃ d, net p = .ok ⟨some d, []⟩) :
    (ids.length = 0 → (usernames ⟨some tok⟩ net ids).2 = [])
    ∧ (1 ≤ ids.length → ids.length ≤ 100 →
      (usernames ⟨some tok⟩ net ids).2 = [⟨ids.map user_node_id⟩])
    ∧ (101 ≤ ids.length → ids.length ≤ 200 →
      (usernames ⟨some tok⟩ net ids).2 =
        [⟨(ids.take 100).map user_node_id⟩,
         ⟨(ids.drop 100).map user_node_id⟩]) := by
  refine ⟨?_, ?_, ?_⟩
  · intro h0
    have h : ids = [] := List.eq_nil_of_length_eq_zero h0
    subst h
    rfl
  · intro h1 h2
    have hne : ids ≠ [] := by
      intro h
      subst h
      simp at h1
    have hcs : chunksList 100 ids = [ids] := chunksList_single ids hne h2
    unfold usernames
    rw [hcs, usernamesGo_trace_ok tok net hv hnet [ids] UMap.empty]
    simp
  · intro h1 _h2
    have hne : ids ≠ [] := by
      intro h
      subst h
      simp at h1
    have hdne : ids.drop 100 ≠ [] := by
      intro h
      have := congrArg List.length h
      simp [List.length_drop] at this
      omega
    have hcs1 := chunksList_cons 100 (by omega) ids hne
    have hcs2 : chunksList 100 (ids.drop 100) = [ids.drop 100] :=
      chunksList_single _ hdne (by simp [List.length_drop]; omega)
    unfold usernames
    rw [hcs1, hcs2,
      usernamesGo_trace_ok tok net hv hnet [ids.take 100, ids.drop 100]
        UMap.empty]
    simp

/-- Witness for the amended C2: one call for a 2-element list, two calls —
the second carrying only the 101st identifier — for a 101-element list. -/
theorem usernames_call_counts_witness :
    (1 ≤ ([3, 4] : List Nat).length ∧ ([3, 4] : List Nat).length ≤ 100
      ∧ (usernames ⟨some "t"⟩ (fun _ => .ok ⟨some ⟨[]⟩, []⟩) [3, 4]).2 =
          [⟨([3, 4] : List Nat).map user_node_id⟩])
    ∧ (101 ≤ (List.range 101).length ∧ (List.range 101).length ≤ 200
      ∧ (usernames ⟨some "t"⟩ (fun _ => .ok ⟨some ⟨[]⟩, []⟩)
          (List.range 101)).2 =
          [⟨((List.range 101).take 100).map user_node_id⟩,
           ⟨((List.range 101).drop 100).map user_node_id⟩]) := by
  refine ⟨⟨by decide, by decide, ?_⟩, ⟨by decide, by decide, ?_⟩⟩
  · exact (usernames_call_counts "t" (fun _ => .ok ⟨some ⟨[]⟩, []⟩) [3, 4]
      (by decide) (fun p => ⟨⟨[]⟩, rfl⟩)).2.1 (by decide) (by decide)
  · exact (usernames_call_counts "t" (fun _ => .ok ⟨some ⟨[]⟩, []⟩)
      (List.range 101) (by decide) (fun p => ⟨⟨[]⟩, rfl⟩)).2.2
      (by decide) (by decide)

/-- C8: whenever a credential is configured, every request built by
`prepare` carries the header `authorization: token <credential>`,
regardless of `require_auth`; and when the credential contains a character
invalid in a header value, building the request fails cleanly with the
header error instead of crashing. -/
theorem prepare_attaches_auth_header (tok : String) (ra : Bool) (m : Method)
    (url : String) :
    (("token " ++ tok).data.all validHeaderChar = true →
      prepare ⟨some tok⟩ ra m url =
        .ok ⟨m, if startsWithHttps url then url else API_BASE ++ url,
             [("authorization", "token " ++ tok)]⟩)
    ∧ (("token " ++ tok).data.all validHeaderChar = false →
      prepare ⟨some tok⟩ ra m url = .error .invalidHeader) :=
  ⟨prepare_some tok ra m url, prepare_some_invalid tok ra m url⟩

/-- Witness for C8: a valid token is attached even on an unauthenticated
REST-style request; a token with an embedded newline fails cleanly. -/
theorem prepare_attaches_auth_header_witness :
    prepare ⟨some "t"⟩ false .GET "users/octocat" =
      .ok ⟨.GET,
        if startsWithHttps "users/octocat" then "users/octocat"
        else API_BASE ++ "users/octocat",
        [("authorization", "token t")]⟩
    ∧ prepare ⟨some "bad\ntoken"⟩ true .POST "graphql" =
        .error .invalidHeader :=
  ⟨(prepare_attaches_auth_header "t" false .GET "users/octocat").1
      (by decide),
   (prepare_attaches_auth_header "bad\ntoken" true .POST "graphql").2
      (by decide)⟩

/-- C10: when every chunk query succeeds, `usernames` returns a map in
which a `databaseId` shared by several resolved nodes (within one chunk or
across chunks, in processing order) is bound to the login of the LAST such
node: later insertions overwrite earlier ones. -/
theorem usernames_duplicate_key_last_wins (tok : String)
    (net : Params → Except Err (GraphResult (GraphNodes Usernames)))
    (nodesOf : Params → List (Option Usernames)) (ids : List Nat)
    (hv : ("token " ++ tok).data.all validHeaderChar = true)
    (hnet : ∀ p, net p = .ok ⟨some ⟨nodesOf p⟩, []⟩) :
    ∃ m : UMap, (usernames ⟨some tok⟩ net ids).1 = .ok m
      ∧ ∀ (k : Nat) (u : Usernames),
          lastK (allChunkNodes nodesOf ids) k = some u →
          UMap.find? m k = some u.login := by
  refine ⟨mergeNodes UMap.empty (allChunkNodes nodesOf ids), ?_, ?_⟩
  · unfold usernames
    rw [usernamesGo_all_ok tok net nodesOf hv hnet (chunksList 100 ids)
      UMap.empty]
    rfl
  · intro k u hu
    rw [find?_mergeNodes]
    simp [hu]

/-- Witness for C10: two nodes with `databaseId = 5` in one chunk resolve
to the login of the second one. -/
theorem usernames_duplicate_key_last_wins_witness :
    ∃ m : UMap,
      (usernames ⟨some "t"⟩
        (fun _ => .ok ⟨some ⟨[some ⟨5, "a"⟩, some ⟨5, "b"⟩]⟩, []⟩) [1]).1 =
        .ok m
      ∧ UMap.find? m 5 = some "b" := by
  obtain ⟨m, hm, hfind⟩ := usernames_duplicate_key_last_wins "t"
    (fun _ => .ok ⟨some ⟨[some ⟨5, "a"⟩, some ⟨5, "b"⟩]⟩, []⟩)
    (fun _ => [some ⟨5, "a"⟩, some ⟨5, "b"⟩]) [1] (by decide) (fun p => rfl)
  exact ⟨m, hm, hfind 5 ⟨5, "b"⟩ (by decide)⟩

theorem charSextet_sextetChar : ∀ s, s < 64 → charSextet (sextetChar s) = s := by
  decide

theorem sextetChar_ne_pad : ∀ s, s < 64 → sextetChar s ≠ '=' := by
  decide

theorem b64_decode_encode : ∀ bs : List Nat, (∀ b ∈ bs, b < 256) →
    b64DecodeBytes (b64EncodeBytes bs) = bs := by
  intro bs
  induction bs using b64EncodeBytes.induct with
  | case1 =>
      intro _
      simp [b64EncodeBytes, b64DecodeBytes]
  | case2 b1 =>
      intro h
      have hb1 : b1 < 256 := h b1 (by simp)
      have e1 := charSextet_sextetChar (b1 / 4) (by omega)
      have e2 := charSextet_sextetChar (b1 % 4 * 16) (by omega)
      simp [b64EncodeBytes, b64DecodeBytes, e1, e2]
      omega
  | case3 b1 b2 =>
      intro h
      have hb1 : b1 < 256 := h b1 (by simp)
      have hb2 : b2 < 256 := h b2 (by simp)
      have ne3 := sextetChar_ne_pad (b2 % 16 * 4) (by omega)
      have e1 := charSextet_sextetChar (b1 / 4) (by omega)
      have e2 := charSextet_sextetChar (b1 % 4 * 16 + b2 / 16) (by omega)
      have e3 := charSextet_sextetChar (b2 % 16 * 4) (by omega)
      simp [b64EncodeBytes, b64DecodeBytes, ne3, e1, e2, e3]
      omega
  | case4 b1 b2 b3 rest ih =>
      intro h
      have hb1 : b1 < 256 := h b1 (by simp)
      have hb2 : b2 < 256 := h b2 (by simp)
      have hb3 : b3 < 256 := h b3 (by simp)
      have hrest : ∀ b ∈ rest, b < 256 := fun b hb => h b (by simp [hb])
      have ne3 := sextetChar_ne_pad (b2 % 16 * 4 + b3 / 64) (by omega)
      have ne4 := sextetChar_ne_pad (b3 % 64) (by omega)
      have e1 := charSextet_sextetChar (b1 / 4) (by omega)
      have e2 := charSextet_sextetChar (b1 % 4 * 16 + b2 / 16) (by omega)
      have e3 := charSextet_sextetChar (b2 % 16 * 4 + b3 / 64) (by omega)
      have e4 := charSextet_sextetChar (b3 % 64) (by omega)
      simp [b64EncodeBytes, b64DecodeBytes, ne3, ne4, e1, e2, e3, e4,
        ih hrest]
      omega

theorem digitChar_toNat : ∀ d, d < 10 → (Nat.digitChar d).toNat = 48 + d := by
  decide

theorem digitsVal_append (cs : List Char) (c : Char) :
    digitsVal (cs ++ [c]) = digitsVal cs * 10 + (c.toNat - 48) := by
  simp [digitsVal, List.foldl_append]

theorem digitsVal_decDigits : ∀ n : Nat, digitsVal (decDigits n) = n := by
  intro n
  induction n using Nat.strong_induction_on with
  | _ n ih =>
      by_cases h : n < 10
      · unfold decDigits
        simp [h, digitsVal, digitChar_toNat n h]
      · unfold decDigits
        simp only [h, dite_false]
        rw [digitsVal_append, ih (n / 10) (Nat.div_lt_self (by omega) (by omega)),
          digitChar_toNat (n % 10) (Nat.mod_lt n (by omega))]
        omega

theorem decDigits_inj (a b : Nat) (h : decDigits a = decDigits b) : a = b := by
  have hv := congrArg digitsVal h
  rwa [digitsVal_decDigits, digitsVal_decDigits] at hv

theorem decDigits_toNat_lt : ∀ n : Nat, ∀ c ∈ decDigits n, c.toNat < 256 := by
  intro n
  induction n using Nat.strong_induction_on with
  | _ n ih =>
      intro c hc
      by_cases h : n < 10
      · unfold decDigits at hc
        simp [h] at hc
        subst hc
        rw [digitChar_toNat n h]
        omega
      · unfold decDigits at hc
        simp only [h, dite_false, List.mem_append, List.mem_singleton] at hc
        rcases hc with hc | hc
        · exact ih (n / 10) (Nat.div_lt_self (by omega) (by omega)) c hc
        · subst hc
          rw [digitChar_toNat (n % 10) (Nat.mod_lt n (by omega))]
          omega

theorem b64EncodeBytes_inj (bs1 bs2 : List Nat) (h1 : ∀ b ∈ bs1, b < 256)
    (h2 : ∀ b ∈ bs2, b < 256)
    (h : b64EncodeBytes bs1 = b64EncodeBytes bs2) : bs1 = bs2 := by
  have hd := congrArg b64DecodeBytes h
  rwa [b64_decode_encode bs1 h1, b64_decode_encode bs2 h2] at hd

theorem char_toNat_inj (c1 c2 : Char) (h : c1.toNat = c2.toNat) : c1 = c2 := by
  have hh := congrArg Char.ofNat h
  rwa [Char.ofNat_toNat, Char.ofNat_toNat] at hh

theorem map_toNat_inj : ∀ l1 l2 : List Char,
    l1.map Char.toNat = l2.map Char.toNat → l1 = l2 := by
  intro l1
  induction l1 with
  | nil =>
      intro l2 h
      cases l2 with
      | nil => rfl
      | cons d ds => simp at h
  | cons c cs ih =>
      intro l2 h
      cases l2 with
      | nil => simp at h
      | cons d ds =>
          simp only [List.map_cons, List.cons.injEq] at h
          rw [char_toNat_inj c d h.1, ih ds h.2]

theorem user_node_id_bytes_lt (n : Nat) :
    ∀ x ∈ ("04:User".data ++ decDigits n).map Char.toNat, x < 256 := by
  intro x hx
  simp only [List.mem_map, List.mem_append] at hx
  obtain ⟨c, hc | hc, rfl⟩ := hx
  · have hfix : ∀ c ∈ "04:User".data, c.toNat < 256 := by decide
    exact hfix c hc
  · exact decDigits_toNat_lt n c hc

/-- C7: `user_node_id` is a pure, total function of the numeric id (defined
for every natural number by construction, with no failure mode and no
state), and it is injective: two distinct ids always produce distinct
encoded node-identifier strings. -/
theorem user_node_id_injective (a b : Nat)
    (h : user_node_id a = user_node_id b) : a = b := by
  have hdata : b64EncodeBytes (("04:User".data ++ decDigits a).map Char.toNat)
      = b64EncodeBytes (("04:User".data ++ decDigits b).map Char.toNat) :=
    congrArg String.data h
  have hbytes := b64EncodeBytes_inj _ _ (user_node_id_bytes_lt a)
    (user_node_id_bytes_lt b) hdata
  have hchars := map_toNat_inj _ _ hbytes
  exact decDigits_inj a b (List.append_cancel_left hchars)

/-- Witness for C7 at a concrete input (the hypothesis instantiated
reflexively). -/
theorem user_node_id_injective_witness :
    user_node_id 3 = user_node_id 3 ∧ (3 : Nat) = 3 :=
  ⟨rfl, user_node_id_injective 3 3 rfl⟩

/-- Counterexample to C9 as frozen: the `errors` field of the envelope does
NOT treat an explicit `null` like a missing field.  A missing `errors`
field takes the serde default (the empty list), but `"errors": null` is
not a JSON sequence and fails deserialization into `Vec<GraphError>` —
`#[serde(default)]` only applies to absent fields. -/
theorem graphresult_errors_null_rejected :
    decodeGraphResult decodeUsize (Json.obj [("errors", Json.null)]) =
      .error "invalid type: expected a sequence"
    ∧ decodeGraphResult decodeUsize (Json.obj []) = .ok ⟨none, []⟩ :=
  ⟨rfl, rfl⟩

/-- C9 amended: the `Option`-typed fields (`name`, `email` of `User`, and
`data` of the envelope) treat a missing field and an explicit `null`
identically as absent values; `errors` defaults to the empty list when the
field is missing, but an explicit `null` for `errors` is a decode error. -/
theorem decode_optional_fields (i : Int) (l : String) (hi : 0 ≤ i) :
    (decodeUser (Json.obj [("id", Json.num i), ("login", Json.str l)]) =
        .ok ⟨i.toNat, l, none, none⟩
      ∧ decodeUser (Json.obj [("id", Json.num i), ("login", Json.str l),
          ("name", Json.null), ("email", Json.null)]) =
          .ok ⟨i.toNat, l, none, none⟩)
    ∧ (∀ dec : Json → Except String Nat,
        decodeGraphResult dec (Json.obj []) = .ok ⟨none, []⟩
        ∧ decodeGraphResult dec (Json.obj [("data", Json.null)]) =
            .ok ⟨none, []⟩)
    ∧ (decodeGraphResult decodeUsize
        (Json.obj [("errors", Json.null)])).isOk = false := by
  refine ⟨⟨?_, ?_⟩, ?_, rfl⟩
  · simp [decodeUser, decodeReqField, jsonField, decodeOptStringField,
      decodeUsize, decodeString, hi, Bind.bind, Except.bind, Pure.pure,
      Except.pure]
  · simp [decodeUser, decodeReqField, jsonField, decodeOptStringField,
      decodeUsize, decodeString, hi, Bind.bind, Except.bind, Pure.pure,
      Except.pure]
  · intro dec
    exact ⟨rfl, rfl⟩

/-- Witness for the amended C9 at a concrete user object. -/
theorem decode_optional_fields_witness :
    (decodeUser (Json.obj [("id", Json.num 1), ("login", Json.str "octocat")]) =
        .ok ⟨(1 : Int).toNat, "octocat", none, none⟩
      ∧ decodeUser (Json.obj [("id", Json.num 1),
          ("login", Json.str "octocat"), ("name", Json.null),
          ("email", Json.null)]) = .ok ⟨(1 : Int).toNat, "octocat", none, none⟩)
    ∧ (∀ dec : Json → Except String Nat,
        decodeGraphResult dec (Json.obj []) = .ok ⟨none, []⟩
        ∧ decodeGraphResult dec (Json.obj [("data", Json.null)]) =
            .ok ⟨none, []⟩)
    ∧ (decodeGraphResult decodeUsize
        (Json.obj [("errors", Json.null)])).isOk = false :=
  decode_optional_fields 1 "octocat" (by decide)

end Github
